/-
Verification of the URL-shortener core against its specification.

The Python source is shallowly embedded:
  * `src/api/utils/codec.py`               → `encode_base62`, `decode_base62`
  * `src/api/utils/short_code_generator.py`→ `generate_short_code`
  * `src/api/services/urllink_service.py`  → `create`, `get_by_code`,
    `perform_click_increment`
  * `src/api/routes/urllinks.py`           → `get_link`
  * `src/api/models/urllink.py`            → `UrlLink`
Python exceptions are modelled by the `Exc` type and `Except`; the database
store is a list of rows; randomness (`secrets.choice`) and concurrent /
transient store failures are supplied as oracles, so every definition stays
executable.
-/
import Mathlib

namespace UrlShortener

/-- Model of the Python exceptions that can cross the embedded functions'
boundaries (`ValueError`, `IndexError`, `KeyError`, SQLAlchemy's
`IntegrityError`, and the application's `ConflictException` /
`NotFoundException`). -/
inductive Exc where
  | valueError
  | indexError
  | keyError
  | integrityError
  | conflictException
  | notFoundException
  deriving DecidableEq, Repr

/-! ## Codec (`src/api/utils/codec.py`) -/

/-- `BASE = 62` from `codec.py` line 4. -/
def BASE : Nat := 62

/-- `CHARSET` from `codec.py` line 5 (identical to the generator's charset):
digits and latin letters with the visually ambiguous glyphs removed. -/
def CHARSET : List Char :=
  "23456789abcdefghjkmnpqrstuvwxyzABCDEFGHJKMNPQRSTUVWXYZ".data

/-- Index of the first occurrence of `c`, or `none`. -/
def idxOf? (l : List Char) (c : Char) : Option Nat :=
  match l with
  | [] => none
  | x :: xs => if x == c then some 0 else (idxOf? xs c).map (· + 1)

/-- `CHARSET_MAP` from `codec.py` line 6: char → its index in `CHARSET`;
a missing key is Python's `KeyError`. -/
def CHARSET_MAP (c : Char) : Option Nat := idxOf? CHARSET c

/-- `CHARSET[char_index]` — Python list indexing, raising `IndexError` when
the index is out of range. -/
def charAt (l : List Char) (i : Nat) : Except Exc Char :=
  match l.get? i with
  | some c => .ok c
  | none => .error .indexError

/-- The `while number > 0` loop of `encode_base62` (`codec.py` lines 31-34):
each iteration takes `number % BASE` as a charset index and prepends the
character, so the recursion emits the high-order digit first. -/
def encodeLoop (n : Nat) : Except Exc (List Char) :=
  if h : n = 0 then .ok []
  else
    match charAt CHARSET (n % BASE) with
    | .error e => .error e
    | .ok c =>
      match encodeLoop (n / BASE) with
      | .error e => .error e
      | .ok rest => .ok (rest ++ [c])
termination_by n
decreasing_by
  exact Nat.div_lt_self (Nat.pos_of_ne_zero h) (by decide)

/-- `encode_base62` (`codec.py` lines 9-36): raises `ValueError` on negative
input, returns `"0"` for zero, otherwise runs the division loop. -/
def encode_base62 (number : Int) : Except Exc (List Char) :=
  if number < 0 then .error .valueError
  else if number = 0 then .ok ['0']
  else encodeLoop number.toNat

/-- The `for index, char in enumerate(encoded_str)` loop of `decode_base62`
(`codec.py` lines 52-57): `pow_value = len - (index + 1)` is exactly the
number of characters still to process, and each step adds
`position * BASE ^ pow_value` to the accumulator. -/
def decodeLoop (s : List Char) (acc : Nat) : Except Exc Nat :=
  match s with
  | [] => .ok acc
  | c :: rest =>
    match CHARSET_MAP c with
    | none => .error .keyError
    | some position => decodeLoop rest (acc + position * BASE ^ rest.length)

/-- `decode_base62` (`codec.py` lines 39-59). -/
def decode_base62 (s : List Char) : Except Exc Nat :=
  decodeLoop s 0

/-! ## Code generator (`src/api/utils/short_code_generator.py`) -/

/-- `generate_short_code` (`short_code_generator.py` lines 8-26), with the
`secrets.choice(CHARSET)` random source supplied as the oracle `pick`
(the in-range index it draws for each position). Raises `ValueError`
when `length < 1`. -/
def generate_short_code (pick : Nat → Fin CHARSET.length) (length : Int) :
    Except Exc (List Char) :=
  if length < 1 then .error .valueError
  else .ok ((List.range length.toNat).map fun i => CHARSET.get (pick i))

/-! ## Data model and store (`src/api/models/urllink.py`) -/

/-- `UrlLink` (`models/urllink.py` lines 9-24): `id` is the store-assigned
surrogate key, `click_count` has storage default `0`, `short_code` carries a
storage-level uniqueness constraint (`unique=True`). The store-managed
timestamps play no role in the verified claims and are omitted. -/
structure UrlLink where
  id : Nat
  original_url : List Char
  short_code : List Char
  click_count : Nat
  deriving DecidableEq, Repr

/-- The durable store behind the repository: the list of persisted rows. -/
abbrev Store := List UrlLink

/-- Modelled from the spec: the collaborator boundary's
`Exists(predicate) -> bool` (the repository's `is_exists`, whose definition
is not part of the source tree; only its caller at
`urllink_service.py` line 58 is). The predicate used there is
`model.short_code == short_code`. -/
def is_exists (store : Store) (short_code : List Char) : Bool :=
  store.any fun l => l.short_code == short_code

/-- Modelled from the spec: the collaborator boundary's
`IncrementCounter(short_code) -> void`, an atomic server-side
`count = count + 1` (the repository's `increment_click_count`, whose
definition is not part of the source tree; only its caller at
`urllink_service.py` line 172 is). -/
def increment_click_count (store : Store) (short_code : List Char) : Store :=
  store.map fun l =>
    if l.short_code == short_code then
      { l with click_count := l.click_count + 1 }
    else l

/-- The surrogate key the store assigns to the next inserted row
(obtained by the Python code via `flush`/`refresh`). -/
def nextId (store : Store) : Nat := store.length + 1

/-- The row built by `UrlLinkRepository.create`
(`urllink_repository.py` lines 19-43) from
`{"original_url": str(url), "short_code": short_code}`, with the storage
defaults filled in at flush time. -/
def newLink (store : Store) (url short_code : List Char) : UrlLink :=
  { id := nextId store
    original_url := url
    short_code := short_code
    click_count := 0 }

/-! ## Create operation (`UrlLinkService.create`,
`src/api/services/urllink_service.py` lines 34-96)

The service loops `for attempt in range(attempts)` with `attempts = 5`.
Two oracles make the embedding executable and let failures be injected:
`gen attempt` is the code returned by `generate_short_code()` on that
attempt, and `commitFail attempt` is the exception — if any — raised inside
that attempt's unit of work (repository insert / flush / commit), e.g. an
`IntegrityError` from a concurrent writer winning the race on the
uniqueness constraint. The returned store is the persisted state after the
call: unchanged on every error path (lines 85-91 roll the transaction
back before re-raising), extended by exactly the new row on success. -/

/-- `attempts = 5` (`urllink_service.py` line 51). -/
def attempts : Nat := 5

/-- The body of the retry loop, iterating over the remaining attempt
indices (Python's `for attempt in range(attempts)`):
pre-check via `is_exists`, `continue` on collision, otherwise one unit of
work that either raises (rollback: store unchanged, exception re-raised,
line 91) or commits the new row; an exhausted loop raises
`ConflictException` (lines 94-96). -/
def createGo (gen : Nat → List Char) (commitFail : Nat → Option Exc)
    (store : Store) (url : List Char) :
    List Nat → Except Exc UrlLink × Store
  | [] => (.error .conflictException, store)
  | attempt :: rest =>
    let short_code := gen attempt
    if is_exists store short_code then
      createGo gen commitFail store url rest
    else
      match commitFail attempt with
      | some e => (.error e, store)
      | none =>
        let link := newLink store url short_code
        (.ok link, store ++ [link])

/-- `UrlLinkService.create` (`urllink_service.py` lines 34-96). -/
def create (gen : Nat → List Char) (commitFail : Nat → Option Exc)
    (store : Store) (url : List Char) : Except Exc UrlLink × Store :=
  createGo gen commitFail store url (List.range attempts)

/-! ## Lookup and redirect (`UrlLinkService.get_by_code`,
`urllink_service.py` lines 98-128, and the route `get_link`,
`routes/urllinks.py` lines 55-82) -/

/-- `UrlLinkService.get_by_code`: `get_by_filter` runs a
`select ... where short_code == code limit 1` (first matching row or
`None`), and a miss raises `NotFoundException`. -/
def get_by_code (store : Store) (short_code : List Char) :
    Except Exc UrlLink :=
  match store.find? (fun l => l.short_code == short_code) with
  | some l => .ok l
  | none => .error .notFoundException

/-- The route `get_link` (`routes/urllinks.py` lines 55-82): resolve the
code, schedule exactly one background increment task for it
(`background_tasks.add_task(..., short_code)`, line 80), and answer with a
redirect to the stored `original_url`. The result carries the redirect
target, the list of scheduled task arguments, and the (untouched) store. -/
def get_link (store : Store) (short_code : List Char) :
    Except Exc (List Char × List (List Char) × Store) :=
  match get_by_code store short_code with
  | .error e => .error e
  | .ok link => .ok (link.original_url, [short_code], store)

/-! ## Click accounting (`UrlLinkService.perform_click_increment`,
`urllink_service.py` lines 162-177) -/

/-- The body of the `try` block inside `perform_click_increment`: the
repository increment plus the commit, run in a fresh session. The oracle
`fail` injects the exception raised by that unit of work, if any; when it
raises, the `db.session()` context manager rolls the session back
(`database.py` lines 114-121), leaving the store unchanged. -/
def increment_uow (fail : Option Exc) (store : Store)
    (short_code : List Char) : Except Exc Store :=
  match fail with
  | some e => .error e
  | none => .ok (increment_click_count store short_code)

/-- `UrlLinkService.perform_click_increment`: runs the unit of work in its
own session; any exception is caught by the `except` clause at line 175,
logged, and absorbed — the function always returns normally, with the
rolled-back (unchanged) store on failure. -/
def perform_click_increment (fail : Option Exc) (store : Store)
    (short_code : List Char) : Store :=
  match increment_uow fail store short_code with
  | .ok store' => store'
  | .error _ => store

/-- The full redirect path as the caller sees it: the route handler
produces the redirect, then the scheduled background tasks run, each on an
independent session with its own failure oracle. The response part never
depends on the accounting part. -/
def redirect_and_account (fail : Option Exc) (store : Store)
    (short_code : List Char) : Except Exc (List Char × Store) :=
  match get_link store short_code with
  | .error e => .error e
  | .ok (url, tasks, store₁) =>
    .ok (url, tasks.foldl (fun s c => perform_click_increment fail s c) store₁)

/-! ## Data-model invariants (`spec.md` §3) -/

/-- The storage-enforced uniqueness invariant: at most one row per
`short_code`. -/
def codesNodup (store : Store) : Prop :=
  (store.map fun l => l.short_code).Nodup

/-- Per-row preservation from one store state to the next: every old row
survives with the same surrogate key, the same immutable `short_code` and
`original_url`, and a click counter that has not decreased. -/
def preservesLinks (old new : Store) : Prop :=
  ∀ l ∈ old, ∃ l', l' ∈ new ∧ l'.id = l.id ∧
    l'.short_code = l.short_code ∧ l'.original_url = l.original_url ∧
    l.click_count ≤ l'.click_count

/-- `n` scheduled click increments for `short_code` completing one after the
other — an arbitrary serialization of atomic server-side adds. -/
def run_increments (n : Nat) (store : Store) (short_code : List Char) :
    Store :=
  match n with
  | 0 => store
  | n + 1 =>
    run_increments n (perform_click_increment none store short_code)
      short_code

/-- A fixed random-source oracle for concrete instantiations: every draw
picks the first charset character. -/
def pick₀ : Nat → Fin CHARSET.length := fun _ => ⟨0, by decide⟩

/-! ## Helper lemmas -/

theorem is_exists_false_iff (store : Store) (code : List Char) :
    is_exists store code = false ↔ ∀ l ∈ store, l.short_code ≠ code := by
  simp [is_exists, List.any_eq_true]

theorem find?_eq_none_of_absent (store : Store) (code : List Char)
    (h : ∀ l ∈ store, l.short_code ≠ code) :
    store.find? (fun l => l.short_code == code) = none := by
  rw [List.find?_eq_none]
  intro l hl
  simpa using h l hl

theorem increment_preserves_shape (store : Store) (code : List Char) :
    (increment_click_count store code).map (fun l => l.short_code) =
      store.map (fun l => l.short_code) := by
  induction store with
  | nil => rfl
  | cons x xs ih =>
    simp only [increment_click_count, List.map_cons] at ih ⊢
    rw [ih]
    split <;> rfl

theorem find?_increment_click_count (store : Store) (code : List Char)
    (l : UrlLink)
    (h : store.find? (fun x => x.short_code == code) = some l) :
    (increment_click_count store code).find?
        (fun x => x.short_code == code) =
      some { l with click_count := l.click_count + 1 } := by
  induction store with
  | nil => simp [List.find?] at h
  | cons x xs ih =>
    have hcons : increment_click_count (x :: xs) code =
        (if (x.short_code == code) = true then
          { x with click_count := x.click_count + 1 } else x) ::
          increment_click_count xs code := rfl
    rw [hcons]
    by_cases hbeq : (x.short_code == code) = true
    · rw [@List.find?_cons_of_pos _ (fun y : UrlLink => y.short_code == code) x xs
        hbeq] at h
      injection h with h
      subst h
      rw [if_pos hbeq]
      exact @List.find?_cons_of_pos _ (fun y : UrlLink => y.short_code == code) _ _
        (by exact hbeq)
    · rw [@List.find?_cons_of_neg _ (fun y : UrlLink => y.short_code == code) x xs
        (by simpa using hbeq)] at h
      rw [if_neg hbeq]
      rw [@List.find?_cons_of_neg _ (fun y : UrlLink => y.short_code == code) x _
        (by simpa using hbeq)]
      exact ih h

theorem mem_increment_of_eq (store : Store) (code : List Char)
    (l : UrlLink) (hl : l ∈ store) (hcode : l.short_code = code) :
    { l with click_count := l.click_count + 1 } ∈
      increment_click_count store code := by
  have hmem := List.mem_map_of_mem
    (fun x : UrlLink => if (x.short_code == code) = true then
      { x with click_count := x.click_count + 1 } else x) hl
  have hmem₂ : (if (l.short_code == code) = true then
      { l with click_count := l.click_count + 1 } else l) ∈
      increment_click_count store code := hmem
  rwa [if_pos (show (l.short_code == code) = true by
    simpa using hcode)] at hmem₂

theorem mem_increment_of_ne (store : Store) (code : List Char)
    (l : UrlLink) (hl : l ∈ store) (hcode : l.short_code ≠ code) :
    l ∈ increment_click_count store code := by
  have hmem := List.mem_map_of_mem
    (fun x : UrlLink => if (x.short_code == code) = true then
      { x with click_count := x.click_count + 1 } else x) hl
  have hmem₂ : (if (l.short_code == code) = true then
      { l with click_count := l.click_count + 1 } else l) ∈
      increment_click_count store code := hmem
  rwa [if_neg (show ¬(l.short_code == code) = true by
    simpa using hcode)] at hmem₂

theorem createGo_error_store (gen : Nat → List Char)
    (cf : Nat → Option Exc) (store : Store) (url : List Char)
    (is : List Nat) (e : Exc)
    (h : (createGo gen cf store url is).1 = .error e) :
    (createGo gen cf store url is).2 = store := by
  induction is with
  | nil => rfl
  | cons i rest ih =>
    simp only [createGo] at h ⊢
    by_cases hex : is_exists store (gen i) = true
    · rw [if_pos hex] at h ⊢
      exact ih h
    · rw [if_neg hex] at h ⊢
      cases hcf : cf i with
      | some e' => rfl
      | none =>
        rw [hcf] at h
        simp at h

theorem createGo_all_collide (gen : Nat → List Char)
    (cf : Nat → Option Exc) (store : Store) (url : List Char)
    (is : List Nat)
    (h : ∀ i ∈ is, is_exists store (gen i) = true) :
    createGo gen cf store url is = (.error .conflictException, store) := by
  induction is with
  | nil => rfl
  | cons i rest ih =>
    simp only [createGo]
    rw [if_pos (h i (List.mem_cons_self i rest))]
    exact ih fun j hj => h j (List.mem_cons_of_mem i hj)

theorem createGo_store_shape (gen : Nat → List Char)
    (cf : Nat → Option Exc) (store : Store) (url : List Char)
    (is : List Nat) :
    (createGo gen cf store url is).2 = store ∨
      ∃ i ∈ is, is_exists store (gen i) = false ∧
        createGo gen cf store url is =
          (.ok (newLink store url (gen i)),
           store ++ [newLink store url (gen i)]) := by
  induction is with
  | nil => exact Or.inl rfl
  | cons i rest ih =>
    simp only [createGo]
    by_cases hex : is_exists store (gen i) = true
    · rw [if_pos hex]
      rcases ih with h | ⟨j, hj, hfree, heq⟩
      · exact Or.inl h
      · exact Or.inr ⟨j, List.mem_cons_of_mem i hj, hfree, heq⟩
    · rw [if_neg hex]
      cases hcf : cf i with
      | some e => exact Or.inl rfl
      | none =>
        exact Or.inr ⟨i, List.mem_cons_self i rest,
          Bool.eq_false_iff.mpr hex, rfl⟩

/-! ## Claim C1 — commit-time constraint violations -/

/-- C1 counterexample: with an empty store, a generator that would offer
the same fresh code on every attempt, and the unit of work raising an
`IntegrityError` only on the first attempt (a concurrent writer winning
the race), the claim predicts the violation is consumed as a collision and
the next attempt succeeds; the code instead surfaces the error to the
caller at once, with four attempts of the budget unused. -/
theorem create_commit_violation_surfaced_cex :
    create (fun _ => "Ab12Cd".data)
        (fun i => if i = 0 then some .integrityError else none)
        [] "https://example.com/a/b".data =
      (.error .integrityError, []) := rfl

/-- C1 (amended): a failure raised inside an attempt's unit of work —
including a uniqueness-constraint violation detected at commit time — is
not consumed as a collision: the transaction is rolled back (store
unchanged) and the exception propagates to the caller immediately, however
much retry budget remains; only pre-check collisions are retried. -/
theorem create_commit_failure_propagates (gen : Nat → List Char)
    (cf : Nat → Option Exc) (store : Store) (url : List Char) (e : Exc)
    (hfree : is_exists store (gen 0) = false) (hcf : cf 0 = some e) :
    create gen cf store url = (.error e, store) := by
  show createGo gen cf store url (0 :: [1, 2, 3, 4]) = _
  simp only [createGo]
  rw [if_neg (by simp [hfree]), hcf]

/-- Witness for C1's amended theorem: concrete run in which the pre-check
passes, the commit raises, and the error (with the rolled-back store) is
what the caller sees. -/
theorem create_commit_failure_propagates_witness :
    is_exists [] ("Ab12Cd".data) = false ∧
    create (fun _ => "Ab12Cd".data)
        (fun i => if i = 0 then some Exc.integrityError else none)
        [] "https://example.com/a/b".data =
      (.error Exc.integrityError, []) :=
  ⟨rfl, create_commit_failure_propagates _ _ [] _ Exc.integrityError rfl rfl⟩

/-! ## Claim C2 — successful first-attempt creation -/

/-- C2: when the store does not contain the candidate code and the unit of
work does not fail, `create` succeeds on the first attempt and persists
exactly one new row whose `short_code` is the generated code, whose
`original_url` is the input URL, and whose `click_count` is the storage
default `0`. -/
theorem create_first_attempt_success (store : Store)
    (url code : List Char) (cf : Nat → Option Exc)
    (hfree : is_exists store code = false) (hcf : cf 0 = none) :
    ∃ link, create (fun _ => code) cf store url =
        (.ok link, store ++ [link]) ∧
      link.short_code = code ∧ link.original_url = url ∧
      link.click_count = 0 := by
  refine ⟨newLink store url code, ?_, rfl, rfl, rfl⟩
  show createGo _ cf store url (0 :: [1, 2, 3, 4]) = _
  simp only [createGo]
  rw [if_neg (by simp [hfree]), hcf]

/-- Witness for C2: the spec's concrete scenario — empty store, generator
forced to `"Ab12Cd"`, URL `"https://example.com/a/b"`. -/
theorem create_first_attempt_success_witness :
    is_exists [] ("Ab12Cd".data) = false ∧
    ∃ link, create (fun _ => "Ab12Cd".data) (fun _ => none) []
          ("https://example.com/a/b".data) =
        (.ok link, [] ++ [link]) ∧
      link.short_code = "Ab12Cd".data ∧
      link.original_url = "https://example.com/a/b".data ∧
      link.click_count = 0 :=
  ⟨rfl, create_first_attempt_success [] _ _ _ rfl rfl⟩

/-! ## Claim C4 — codec round-trip -/

/-- C4: the round-trip law `decode(encode(n)) == n` fails on the code at
`n = 0`: `encode_base62 0` returns `"0"`, a character outside the
54-character charset, so decoding it raises `KeyError` instead of
returning `0`. -/
theorem decode_encode_zero_fails :
    (encode_base62 0).bind decode_base62 = .error .keyError := rfl

/-! ## Claim C5 — budget exhaustion and rollback -/

/-- C5: if the pre-check collides on all five attempts, `create` aborts
with `ConflictException` and persists nothing; and on every error outcome
whatsoever the returned store equals the initial one — each failed
attempt's transaction was rolled back in full. -/
theorem create_exhaustion_and_rollback (gen : Nat → List Char)
    (cf : Nat → Option Exc) (store : Store) (url : List Char) :
    ((∀ i, i < attempts → is_exists store (gen i) = true) →
      create gen cf store url = (.error .conflictException, store)) ∧
    (∀ e, (create gen cf store url).1 = .error e →
      (create gen cf store url).2 = store) := by
  constructor
  · intro h
    exact createGo_all_collide gen cf store url (List.range attempts)
      fun i hi => h i (List.mem_range.mp hi)
  · intro e he
    exact createGo_error_store gen cf store url (List.range attempts) e he

/-- Witness for C5: a one-row store whose code the generator keeps
producing; all five attempts collide, the call fails with
`ConflictException` and the store is untouched. -/
theorem create_exhaustion_and_rollback_witness :
    create (fun _ => "aa".data) (fun _ => none)
        [⟨1, "https://e.io/x".data, "aa".data, 0⟩] ("https://e.io/y".data) =
      (.error Exc.conflictException,
       [⟨1, "https://e.io/x".data, "aa".data, 0⟩]) ∧
    (create (fun _ => "aa".data) (fun _ => none)
        [⟨1, "https://e.io/x".data, "aa".data, 0⟩]
        ("https://e.io/y".data)).2 =
      [⟨1, "https://e.io/x".data, "aa".data, 0⟩] :=
  ⟨(create_exhaustion_and_rollback _ _ _ _).1 (fun _ _ => rfl),
   (create_exhaustion_and_rollback _ _ _ _).2 Exc.conflictException rfl⟩

/-! ## Claim C8 — totality of encode on non-negative input -/

/-- C8: `encode` is not total on the non-negative integers: at `n = 54`
the computed character index `54 % 62 = 54` falls outside the 54-character
charset (`BASE` is 62 but the alphabet has 54 symbols), so the code raises
`IndexError` — an error other than the claimed `InvalidArgument`, on a
non-negative input. -/
theorem encode_fiftyfour_index_out_of_range :
    encode_base62 54 = .error .indexError := by
  simp [encode_base62, encodeLoop, charAt, CHARSET, BASE]

/-! ## Claim C9 — generator length and alphabet -/

/-- C9: for every random source and every `k ≥ 1`, `generate_short_code`
returns a string of exactly `k` characters all drawn from the fixed
54-character alphabet; for every `k < 1` it raises `ValueError`
(`InvalidArgument`). -/
theorem generate_short_code_spec (pick : Nat → Fin CHARSET.length)
    (k : Int) :
    (1 ≤ k → ∃ s, generate_short_code pick k = .ok s ∧
      s.length = k.toNat ∧ ∀ c ∈ s, c ∈ CHARSET) ∧
    (k < 1 → generate_short_code pick k = .error .valueError) := by
  constructor
  · intro hk
    refine ⟨(List.range k.toNat).map fun i => CHARSET.get (pick i),
      ?_, ?_, ?_⟩
    · simp [generate_short_code, not_lt.mpr hk]
    · simp
    · intro c hc
      obtain ⟨i, _, rfl⟩ := List.mem_map.mp hc
      exact List.get_mem CHARSET _ _
  · intro hk
    simp [generate_short_code, hk]

/-- Witness for C9: the default length 6 yields a six-character code over
the alphabet, and length 0 is rejected. -/
theorem generate_short_code_spec_witness :
    (∃ s, generate_short_code pick₀ 6 = .ok s ∧
      s.length = (6 : Int).toNat ∧ ∀ c ∈ s, c ∈ CHARSET) ∧
    generate_short_code pick₀ 0 = .error Exc.valueError :=
  ⟨(generate_short_code_spec pick₀ 6).1 (by decide),
   (generate_short_code_spec pick₀ 0).2 (by decide)⟩

/-! ## Claim C6 — resolve: miss, hit, single scheduled increment -/

/-- C6: resolving a code with no matching stored link fails with
`NotFoundException`; resolving a code with a matching stored link answers
with that link's stored `original_url`, leaves the store untouched, and
schedules exactly one increment task for that code. -/
theorem resolve_link_spec (store : Store) (code : List Char) :
    ((∀ l ∈ store, l.short_code ≠ code) →
      get_link store code = .error .notFoundException) ∧
    (∀ l, store.find? (fun x => x.short_code == code) = some l →
      get_link store code = .ok (l.original_url, [code], store)) := by
  constructor
  · intro h
    simp [get_link, get_by_code, find?_eq_none_of_absent store code h]
  · intro l hl
    simp [get_link, get_by_code, hl]

/-- Witness for C6: a populated store — the known code redirects to its
stored URL with one scheduled increment, the unknown code is a 404. -/
theorem resolve_link_spec_witness :
    get_link [⟨1, "https://e.io/x".data, "aa".data, 0⟩] ("zz".data) =
      .error Exc.notFoundException ∧
    get_link [⟨1, "https://e.io/x".data, "aa".data, 0⟩] ("aa".data) =
      .ok ("https://e.io/x".data, ["aa".data],
        [⟨1, "https://e.io/x".data, "aa".data, 0⟩]) :=
  ⟨(resolve_link_spec _ _).1 (by decide),
   (resolve_link_spec _ _).2 ⟨1, "https://e.io/x".data, "aa".data, 0⟩ rfl⟩

/-! ## Claim C3 — atomic increment, no lost updates -/

/-- C3: one completed run of the scheduled increment bumps the click
counter of every row holding that code by exactly one and leaves every
other row untouched; and because the increment is a single atomic
server-side add, any serialization of `n` scheduled increments yields a
count raised by exactly `n` — no update is lost. -/
theorem click_increment_atomic (store : Store) (code : List Char) :
    (∀ l ∈ store, l.short_code = code →
      { l with click_count := l.click_count + 1 } ∈
        perform_click_increment none store code) ∧
    (∀ l ∈ store, l.short_code ≠ code →
      l ∈ perform_click_increment none store code) ∧
    (∀ n l, store.find? (fun x => x.short_code == code) = some l →
      (run_increments n store code).find?
          (fun x => x.short_code == code) =
        some { l with click_count := l.click_count + n }) := by
  refine ⟨?_, ?_, ?_⟩
  · exact fun l hl hcode => mem_increment_of_eq store code l hl hcode
  · exact fun l hl hcode => mem_increment_of_ne store code l hl hcode
  · intro n
    induction n generalizing store with
    | zero =>
      intro l hl
      simpa [run_increments] using hl
    | succ n ih =>
      intro l hl
      have step := find?_increment_click_count store code l hl
      have := ih (increment_click_count store code)
        { l with click_count := l.click_count + 1 } step
      simp only [run_increments, perform_click_increment, increment_uow]
      rw [this]
      have harith : l.click_count + 1 + n = l.click_count + (n + 1) := by
        omega
      rw [harith]

/-- Witness for C3: a two-row store; the matching row's counter goes from
`0` to `1` on one run, the other row is untouched, and three serialized
runs take the counter to `3`. -/
theorem click_increment_atomic_witness :
    (⟨1, "https://e.io/x".data, "aa".data, 1⟩ : UrlLink) ∈
      perform_click_increment none
        [⟨1, "https://e.io/x".data, "aa".data, 0⟩,
         ⟨2, "https://e.io/y".data, "bb".data, 7⟩] ("aa".data) ∧
    (⟨2, "https://e.io/y".data, "bb".data, 7⟩ : UrlLink) ∈
      perform_click_increment none
        [⟨1, "https://e.io/x".data, "aa".data, 0⟩,
         ⟨2, "https://e.io/y".data, "bb".data, 7⟩] ("aa".data) ∧
    (run_increments 3
        [⟨1, "https://e.io/x".data, "aa".data, 0⟩,
         ⟨2, "https://e.io/y".data, "bb".data, 7⟩] ("aa".data)).find?
        (fun x => x.short_code == "aa".data) =
      some ⟨1, "https://e.io/x".data, "aa".data, 3⟩ :=
  ⟨(click_increment_atomic _ _).1 ⟨1, "https://e.io/x".data, "aa".data, 0⟩
      (by decide) rfl,
   (click_increment_atomic _ _).2.1
      ⟨2, "https://e.io/y".data, "bb".data, 7⟩ (by decide) (by decide),
   (click_increment_atomic _ _).2.2 3
      ⟨1, "https://e.io/x".data, "aa".data, 0⟩ rfl⟩

/-! ## Claim C7 — accounting failures are absorbed -/

/-- C7: any failure inside the click-accounting unit of work is absorbed:
the background task rolls its own session back and returns normally
(store unchanged), the redirect path's outcome is the same whatever the
accounting failure oracle says, and the only error the redirect path can
ever produce is the lookup miss `NotFoundException`. -/
theorem click_accounting_isolated (fail : Option Exc) (store : Store)
    (code : List Char) :
    (∀ e, increment_uow fail store code = .error e →
      perform_click_increment fail store code = store) ∧
    ((redirect_and_account fail store code).isOk =
      (get_by_code store code).isOk) ∧
    (∀ e, redirect_and_account fail store code = .error e →
      e = .notFoundException) := by
  refine ⟨?_, ?_, ?_⟩
  · intro e he
    simp [perform_click_increment, he]
  · cases hfind : store.find? (fun l => l.short_code == code) with
    | none =>
      simp only [redirect_and_account, get_link, get_by_code, hfind]
      rfl
    | some l =>
      simp only [redirect_and_account, get_link, get_by_code, hfind]
      rfl
  · intro e he
    cases hfind : store.find? (fun l => l.short_code == code) with
    | none =>
      simp [redirect_and_account, get_link, get_by_code, hfind] at he
      exact he.symm
    | some l =>
      simp [redirect_and_account, get_link, get_by_code, hfind] at he

/-- Witness for C7: with an `IntegrityError` injected into the accounting
unit of work, the background task still returns normally with the store
rolled back, and the redirect for the known code still succeeds. -/
theorem click_accounting_isolated_witness :
    perform_click_increment (some Exc.integrityError)
        [⟨1, "https://e.io/x".data, "aa".data, 0⟩] ("aa".data) =
      [⟨1, "https://e.io/x".data, "aa".data, 0⟩] ∧
    (redirect_and_account (some Exc.integrityError)
        [⟨1, "https://e.io/x".data, "aa".data, 0⟩] ("aa".data)).isOk =
      (get_by_code [⟨1, "https://e.io/x".data, "aa".data, 0⟩]
        ("aa".data)).isOk :=
  ⟨(click_accounting_isolated (some Exc.integrityError) _ _).1
      Exc.integrityError rfl,
   (click_accounting_isolated (some Exc.integrityError) _ _).2.1⟩

/-! ## Claim C10 — data-model invariants -/

/-- C10: every core operation preserves the data-model invariants. If the
store's codes are pairwise distinct, then after any `create` run (any
generator, any injected failures) they still are, and every pre-existing
row survives with its surrogate key, `short_code` and `original_url`
unchanged and its click counter not decreased; the same holds for any run
of the background increment; and the resolve path returns the store
untouched. In particular a successful `create` appends a row whose code
was absent, so codes of successively created links stay pairwise
distinct. -/
theorem core_ops_preserve_invariants (gen : Nat → List Char)
    (cf : Nat → Option Exc) (store : Store) (url : List Char)
    (fail : Option Exc) (code : List Char)
    (hnd : codesNodup store) :
    (codesNodup (create gen cf store url).2 ∧
      preservesLinks store (create gen cf store url).2) ∧
    (codesNodup (perform_click_increment fail store code) ∧
      preservesLinks store (perform_click_increment fail store code)) ∧
    (∀ u ts s', get_link store code = .ok (u, ts, s') → s' = store) := by
  refine ⟨?_, ?_, ?_⟩
  · rcases createGo_store_shape gen cf store url (List.range attempts)
      with h | ⟨i, _, hfree, heq⟩
    · rw [create, h]
      exact ⟨hnd, fun l hl => ⟨l, hl, rfl, rfl, rfl, le_refl _⟩⟩
    · have h2 : (create gen cf store url).2 =
          store ++ [newLink store url (gen i)] := by
        rw [create, heq]
      rw [h2]
      constructor
      · rw [codesNodup, List.map_append, List.nodup_append]
        refine ⟨hnd, List.nodup_singleton _, ?_⟩
        intro a ha hb
        obtain ⟨l, hl, rfl⟩ := List.mem_map.mp ha
        have := (is_exists_false_iff store (gen i)).mp hfree l hl
        simp only [List.map_cons, List.map_nil, List.mem_cons,
          List.not_mem_nil, or_false] at hb
        exact this (by simpa [newLink] using hb)
      · exact fun l hl =>
          ⟨l, List.mem_append_left _ hl, rfl, rfl, rfl, le_refl _⟩
  · cases fail with
    | some e =>
      exact ⟨hnd, fun l hl => ⟨l, hl, rfl, rfl, rfl, le_refl _⟩⟩
    | none =>
      constructor
      · show codesNodup (increment_click_count store code)
        rw [codesNodup, increment_preserves_shape]
        exact hnd
      · intro l hl
        by_cases hc : l.short_code = code
        · exact ⟨{ l with click_count := l.click_count + 1 },
            mem_increment_of_eq store code l hl hc, rfl, rfl, rfl,
            Nat.le_succ _⟩
        · exact ⟨l, mem_increment_of_ne store code l hl hc,
            rfl, rfl, rfl, le_refl _⟩
  · intro u ts s' h
    cases hfind : store.find? (fun l => l.short_code == code) with
    | none => simp [get_link, get_by_code, hfind] at h
    | some l =>
      simp only [get_link, get_by_code, hfind] at h
      injection h with h
      injection h with _ h
      injection h with _ h
      exact h.symm

/-- Witness for C10: a concrete one-row store with distinct codes; after a
successful create and one increment the code list is still duplicate-free
and the original row survived intact. -/
theorem core_ops_preserve_invariants_witness :
    codesNodup [⟨1, "https://e.io/x".data, "aa".data, 0⟩] ∧
    (codesNodup (create (fun _ => "Ab12Cd".data) (fun _ => none)
        [⟨1, "https://e.io/x".data, "aa".data, 0⟩]
        ("https://example.com/a/b".data)).2 ∧
      preservesLinks [⟨1, "https://e.io/x".data, "aa".data, 0⟩]
        (create (fun _ => "Ab12Cd".data) (fun _ => none)
          [⟨1, "https://e.io/x".data, "aa".data, 0⟩]
          ("https://example.com/a/b".data)).2) ∧
    (codesNodup (perform_click_increment none
        [⟨1, "https://e.io/x".data, "aa".data, 0⟩] ("aa".data)) ∧
      preservesLinks [⟨1, "https://e.io/x".data, "aa".data, 0⟩]
        (perform_click_increment none
          [⟨1, "https://e.io/x".data, "aa".data, 0⟩] ("aa".data))) :=
  ⟨by unfold codesNodup; decide,
   (core_ops_preserve_invariants (fun _ => "Ab12Cd".data) (fun _ => none)
      [⟨1, "https://e.io/x".data, "aa".data, 0⟩]
      ("https://example.com/a/b".data) none ("aa".data)
      (by unfold codesNodup; decide)).1,
   ((core_ops_preserve_invariants (fun _ => "Ab12Cd".data) (fun _ => none)
      [⟨1, "https://e.io/x".data, "aa".data, 0⟩]
      ("https://example.com/a/b".data) none ("aa".data)
      (by unfold codesNodup; decide)).2).1⟩

end UrlShortener
